import Mathlib

/-!
Verification of the document-utilities extraction engine
(src/services/docutils/server.py) against its specification.

The embedding models the Python source shallowly:
- Python strings are Lean `String`s; `str.strip()` is `pyStrip` (ASCII
  whitespace, which covers every input appearing in the claims);
  `sep.join(...)` is `pyJoin`.
- `os.path.splitext(...)[1].lower()` is `extOf`, following the posixpath
  algorithm: the extension starts at the last dot, provided that dot lies
  after the last path separator and at least one non-dot character precedes
  it within the basename (so dotfiles such as ".pdf" have no extension).
- Reading a file in Python text mode applies universal-newline translation
  ("\r\n" and lone "\r" become "\n"); this is `univNL`.
- The filesystem is a list of present paths; `os.unlink` is `unlink`, which
  raises (returns `Except.error`) when the path is absent, as POSIX unlink
  does.
- Each parser takes the structured content its format library would produce
  (page texts for pymupdf, paragraph/table texts for python-docx, cell
  values for openpyxl, shape paragraphs for python-pptx, the DOM title
  element and extracted text for beautifulsoup4) and assembles the result
  dict exactly as the source does.
-/

namespace DocUtils

/-- ASCII whitespace, the characters Python `str.strip()` removes on the
inputs relevant here (space, tab, newline, carriage return, vertical tab,
form feed). -/
def pyIsSpace (c : Char) : Bool :=
  c == ' ' || c == '\t' || c == '\n' || c == '\r' || c == '\x0b' || c == '\x0c'

/-- Python `str.strip()`: drop leading and trailing whitespace. -/
def pyStrip (s : String) : String :=
  ⟨((s.data.dropWhile pyIsSpace).reverse.dropWhile pyIsSpace).reverse⟩

/-- Python `sep.join(l)`. -/
def pyJoin (sep : String) : List String → String
  | [] => ""
  | [x] => x
  | x :: y :: rest => x ++ sep ++ pyJoin sep (y :: rest)

/-- Universal-newline translation performed by Python when reading a file in
text mode: each "\r\n" pair and each lone "\r" becomes "\n". -/
def univNL : List Char → List Char
  | [] => []
  | '\r' :: '\n' :: rest => '\n' :: univNL rest
  | '\r' :: rest => '\n' :: univNL rest
  | c :: rest => c :: univNL rest

/-- The basename of a path: everything after the last `/` (the whole string
when there is no separator), as used by `posixpath.splitext`. -/
def basename (p : List Char) : List Char :=
  (p.reverse.takeWhile (fun c => c != '/')).reverse

/-- The text after the last `.` of the string (the whole string when there is
no dot). -/
def lastDotSuffix (p : List Char) : List Char :=
  (p.reverse.takeWhile (fun c => c != '.')).reverse

/-- `posixpath.splitext(p)[1]`: the extension including its dot, or `[]` when
there is none.  The extension starts at the last dot provided that dot lies in
the basename and some non-dot character precedes it there; a basename that is
all dots up to its last dot (such as ".pdf" or "..pdf") has no extension. -/
def splitextExt (p : List Char) : List Char :=
  let b := basename p
  if '.' ∈ b then
    let suf := lastDotSuffix b
    if (b.take (b.length - suf.length - 1)).any (fun c => c != '.') then
      '.' :: suf
    else []
  else []

/-- Whether `posixpath.splitext` assigns the string a non-empty extension. -/
def hasProperExt (p : List Char) : Bool :=
  let b := basename p
  decide ('.' ∈ b) &&
    (b.take (b.length - (lastDotSuffix b).length - 1)).any (fun c => c != '.')

/-- `os.path.splitext(filename)[1].lower()` from `parse_document`. -/
def extOf (filename : String) : String :=
  ⟨(splitextExt filename.data).map Char.toLower⟩

/-- The format identifiers of the engine, one per parser function. -/
inductive FormatId where
  | pdf
  | docx
  | xlsx
  | pptx
  | html
  | text
deriving DecidableEq

/-- The `PARSERS` dict of the source, in declaration order: extension to
parser, both `.html` and `.htm` dispatching to the HTML parser and the
plain-text family to the text parser. -/
def PARSERS : List (String × FormatId) :=
  [(".pdf", FormatId.pdf), (".docx", FormatId.docx), (".xlsx", FormatId.xlsx),
   (".pptx", FormatId.pptx), (".html", FormatId.html), (".htm", FormatId.html),
   (".txt", FormatId.text), (".md", FormatId.text), (".csv", FormatId.text),
   (".json", FormatId.text), (".xml", FormatId.text), (".yaml", FormatId.text),
   (".yml", FormatId.text), (".log", FormatId.text)]

/-- Dict lookup `PARSERS[ext]`, `none` when `ext not in PARSERS`. -/
def lookupParser (ext : String) : Option FormatId :=
  (PARSERS.find? (fun kv => kv.1 == ext)).map Prod.snd

/-- `PARSERS.keys()`. -/
def supportedExts : List String := PARSERS.map Prod.fst

/-- The format registry: filename to format identifier, via the lowercased
`splitext` extension. -/
def resolve (filename : String) : Option FormatId :=
  lookupParser (extOf filename)

/-- Python string comparison `a < b`: lexicographic by code point. -/
def pyStrLtChars : List Char → List Char → Bool
  | [], [] => false
  | [], _ :: _ => true
  | _ :: _, [] => false
  | a :: as, b :: bs =>
    if a.val < b.val then true
    else if b.val < a.val then false
    else pyStrLtChars as bs

/-- Python `a <= b` on strings. -/
def pyStrLe (a b : String) : Bool := pyStrLtChars a.data b.data || a == b

/-- Insert into a sorted list, keeping earlier elements first on ties. -/
def insertLe (a : String) : List String → List String
  | [] => [a]
  | b :: rest => if pyStrLe a b then a :: b :: rest else b :: insertLe a rest

/-- Python `sorted` on a list of strings (insertion sort; the order agrees
with any comparison sort since the compared keys are distinct). -/
def pySorted : List String → List String
  | [] => []
  | a :: rest => insertLe a (pySorted rest)

/-- `sorted(PARSERS.keys())`, used in the unsupported-format message and the
formats endpoint. -/
def sortedSupported : List String := pySorted supportedExts

/-- Checks that a list of strings is weakly increasing. -/
def isSortedLe : List String → Bool
  | [] => true
  | [_] => true
  | a :: b :: rest => pyStrLe a b && isSortedLe (b :: rest)

/-- Attaches 1-based position numbers, as `enumerate` with `i + 1` does. -/
def numbered {α : Type} (i : Nat) : List α → List (Nat × α)
  | [] => []
  | x :: rest => (i + 1, x) :: numbered (i + 1) rest

/-- Result dict of `parse_pdf`: page count, non-empty metadata entries,
stripped per-page texts with 1-based page numbers, and the full text joining
the non-empty page texts with a blank line. -/
structure PdfResult where
  format : String
  pages : Nat
  metadata : List (String × String)
  content : List (Nat × String)
  full_text : String
deriving DecidableEq

/-- `parse_pdf`, taking the page texts in document order as pymupdf returns
them, and the metadata mapping of the document. -/
def parse_pdf (pageTexts : List String) (md : List (String × String)) :
    PdfResult :=
  let stripped := pageTexts.map pyStrip
  { format := "pdf"
    pages := stripped.length
    metadata := md.filter (fun kv => kv.2 != "")
    content := numbered 0 stripped
    full_text := pyJoin "\n\n" (stripped.filter (fun t => t != "")) }

/-- Result dict of `parse_docx`. -/
structure DocxResult where
  format : String
  paragraphs : Nat
  tables : Nat
  content : List String
  table_data : List (List (List String))
  full_text : String
deriving DecidableEq

/-- `parse_docx`, taking the paragraph texts in document order and the tables
as grids of cell texts, as python-docx exposes them.  Paragraphs whose
stripped text is empty are dropped; table cells are stripped and all kept;
the full text joins the kept paragraphs with a blank line and ignores
tables. -/
def parse_docx (paras : List String) (tbls : List (List (List String))) :
    DocxResult :=
  let paragraphs := paras.filter (fun p => pyStrip p != "")
  let tables := tbls.map (fun t => t.map (fun row => row.map pyStrip))
  { format := "docx"
    paragraphs := paragraphs.length
    tables := tables.length
    content := paragraphs
    table_data := tables
    full_text := pyJoin "\n\n" paragraphs }

/-- Result dict of `parse_xlsx`. -/
structure XlsxResult where
  format : String
  sheets : List String
  sheet_count : Nat
  data : List (String × List (List String))
  full_text : String
deriving DecidableEq

/-- `parse_xlsx`, taking the workbook as sheets in declared order, each a
list of rows of cells, a cell being `none` when absent and otherwise the
string form of its value.  Every cell becomes a string (absent becomes ""),
rows whose cells all strip to empty are dropped, and every sheet is kept in
the mapping even when all its rows were dropped. -/
def parse_xlsx (wb : List (String × List (List (Option String)))) :
    XlsxResult :=
  let sheets := wb.map (fun sh =>
    (sh.1, (sh.2.map (fun row => row.map (fun c => c.getD ""))).filter
      (fun r => r.any (fun c => pyStrip c != ""))))
  { format := "xlsx"
    sheets := sheets.map Prod.fst
    sheet_count := sheets.length
    data := sheets
    full_text := pyJoin "\n" (sheets.map (fun sh =>
      "[" ++ sh.1 ++ "]\n" ++ pyJoin "\n" (sh.2.map (pyJoin "\t")))) }

/-- The kept text lines of one slide: for each shape that has a text frame
(`some` paragraphs), the stripped paragraph texts that are non-empty, in
document order. -/
def slideTexts (shapes : List (Option (List String))) : List String :=
  (shapes.filterMap id).flatMap
    (fun paras => (paras.map pyStrip).filter (fun t => t != ""))

/-- Result dict of `parse_pptx`. -/
structure PptxResult where
  format : String
  slides : Nat
  content : List (Nat × List String)
  full_text : String
deriving DecidableEq

/-- `parse_pptx`, taking the slides in order, each slide a list of shapes,
a shape being `some` paragraph texts when it has a text frame. -/
def parse_pptx (slideShapes : List (List (Option (List String)))) :
    PptxResult :=
  let content := numbered 0 (slideShapes.map slideTexts)
  { format := "pptx"
    slides := content.length
    content := content
    full_text := pyJoin "\n\n" ((content.filter (fun s => s.2 != [])).map
      (fun s => "--- Slide " ++ toString s.1 ++ " ---\n" ++ pyJoin "\n" s.2)) }

/-- A node of the parsed HTML tree: a text node or an element with child
nodes (attributes and tag names are irrelevant to the modelled behavior). -/
inductive HNode where
  | text (s : String)
  | elem (children : List HNode)

/-- The `.string` property of a beautifulsoup4 tag with the given children:
the single string child when there is exactly one child and it is (possibly
recursively through single-element children) a string, and `None` otherwise —
in particular `None` for an empty tag. -/
def tagString : List HNode → Option String
  | [HNode.text s] => some s
  | [HNode.elem cs] => tagString cs
  | _ => none

/-- Result dict of `parse_html`.  `title` is an `Option` because the Python
code can produce `None` for it. -/
structure HtmlResult where
  format : String
  title : Option String
  full_text : String
deriving DecidableEq

/-- `parse_html`, taking the children of the title element when one exists
(after script and style removal) and the text that `get_text` extracts.
A beautifulsoup4 tag is always truthy (its `Tag` class defines a `bool`
conversion returning `True` even for an empty tag), so whenever a title
element exists the code returns its `.string`, which is `None` for an empty
title element; only a missing title element yields the empty string. -/
def parse_html (title? : Option (List HNode)) (text : String) : HtmlResult :=
  { format := "html"
    title := match title? with
      | none => some ""
      | some cs => tagString cs
    full_text := text }

/-- Result dict of `parse_text`. -/
structure TextResult where
  format : String
  full_text : String
  lines : Nat
  characters : Nat
deriving DecidableEq

/-- `parse_text`, taking the byte content decoded as UTF-8 with replacement
characters for invalid sequences.  Reading in Python text mode applies
universal-newline translation to the decoded content; the line count is the
count of newline characters plus one and the character count the length of
the text read. -/
def parse_text (decoded : String) : TextResult :=
  let text : String := ⟨univNL decoded.data⟩
  { format := "text"
    full_text := text
    lines := text.data.count '\n' + 1
    characters := text.length }

/-- The strategy result handed back to the coordinator. -/
inductive ParseResult where
  | pdf (r : PdfResult)
  | docx (r : DocxResult)
  | xlsx (r : XlsxResult)
  | pptx (r : PptxResult)
  | html (r : HtmlResult)
  | text (r : TextResult)
deriving DecidableEq

/-- The coordinator response: either the strategy result merged with the
coordinator fields (`processing_time`, a wall-clock float, is outside the
model), or an HTTP error with status code and detail message. -/
inductive Outcome where
  | ok (result : ParseResult) (filename : String) (file_size : Nat)
  | err (status : Nat) (detail : String)
deriving DecidableEq

/-- `file.filename or "document"`: `None` and the empty string are falsy. -/
def effectiveName (filename? : Option String) : String :=
  match filename? with
  | none => "document"
  | some s => if s = "" then "document" else s

/-- `os.unlink`: removes the path when present, raises `FileNotFoundError`
when the path is absent. -/
def unlink (p : String) (fs : List String) : Except String (List String) :=
  if p ∈ fs then Except.ok (fs.erase p) else Except.error "FileNotFoundError"

/-- The `/parse` coordinator.  `strategy` abstracts the per-format parser
invocation on the temporary file holding `content` (`Except.error` models
the parser raising); `tmpName` is the unique name `NamedTemporaryFile`
chooses; `fs` is the set of paths on disk.  Unsupported extensions are
rejected before the temporary file is written; otherwise the temporary file
is written, the strategy runs inside `try`, and the `finally` block unlinks
the temporary file on both the success and the exception path. -/
def parse_document (filename? : Option String) (content : List Nat)
    (strategy : FormatId → List Nat → Except String ParseResult)
    (tmpName : String) (fs : List String) : Outcome × List String :=
  let filename := effectiveName filename?
  let ext := extOf filename
  match lookupParser ext with
  | none =>
    (Outcome.err 400 ("Unsupported format: " ++ ext ++ ". Supported: " ++
      pyJoin ", " sortedSupported), fs)
  | some fmt =>
    let fs1 : List String := tmpName :: fs
    let outcome := match strategy fmt content with
      | Except.ok r => Outcome.ok r filename content.length
      | Except.error e =>
        Outcome.err 500 ("Failed to parse " ++ filename ++ ": " ++ e)
    match unlink tmpName fs1 with
    | Except.ok fs2 => (outcome, fs2)
    | Except.error e => (Outcome.err 500 e, fs1)

theorem string_eq_empty_iff (s : String) : s = "" ↔ s.data = [] := by
  constructor
  · intro h
    rw [h]
  · intro h
    exact congrArg String.mk h

theorem append_ne_empty_left (a b : String) (h : a ≠ "") : a ++ b ≠ "" := by
  intro hc
  have hd := congrArg String.data hc
  simp only [String.data_append] at hd
  rcases List.append_eq_nil.mp hd with ⟨h1, _⟩
  exact h ((string_eq_empty_iff a).mpr h1)

theorem append_ne_empty_right (a b : String) (h : b ≠ "") : a ++ b ≠ "" := by
  intro hc
  have hd := congrArg String.data hc
  simp only [String.data_append] at hd
  rcases List.append_eq_nil.mp hd with ⟨_, h2⟩
  exact h ((string_eq_empty_iff b).mpr h2)

theorem pyJoin_ne_empty (sep : String) (l : List String) (s : String)
    (hs : s ∈ l) (hne : s ≠ "") : pyJoin sep l ≠ "" := by
  induction l with
  | nil => cases hs
  | cons x t ih =>
    cases t with
    | nil =>
      rcases List.mem_singleton.mp hs with rfl
      simpa [pyJoin] using hne
    | cons y rest =>
      rcases List.mem_cons.mp hs with h1 | h2
      · subst h1
        exact append_ne_empty_left _ _ (append_ne_empty_left _ _ hne)
      · exact append_ne_empty_right _ _ (ih h2)

theorem univNL_cons_ne (c : Char) (rest : List Char) (hc : c ≠ '\r') :
    univNL (c :: rest) = c :: univNL rest := by
  rw [univNL.eq_def]
  split <;> simp_all

theorem univNL_no_cr (l : List Char) (h : '\r' ∉ l) : univNL l = l := by
  induction l with
  | nil => rfl
  | cons c rest ih =>
    have hc : c ≠ '\r' := fun e => h (e ▸ List.mem_cons_self c rest)
    have hr : '\r' ∉ rest := fun m => h (List.mem_cons_of_mem _ m)
    rw [univNL_cons_ne c rest hc, ih hr]

theorem univNL_ne_nil (l : List Char) (h : l ≠ []) : univNL l ≠ [] := by
  cases l with
  | nil => exact absurd rfl h
  | cons c rest =>
    rw [univNL.eq_def]
    split <;> simp_all

theorem pyJoin_map_ne_empty {β : Type} (sep : String) (g : β → String)
    (l : List β) (hl : l ≠ []) (hg : ∀ b ∈ l, g b ≠ "") :
    pyJoin sep (l.map g) ≠ "" := by
  obtain ⟨b, hb⟩ := List.exists_mem_of_ne_nil l hl
  exact pyJoin_ne_empty sep _ (g b) (List.mem_map_of_mem g hb) (hg b hb)

theorem takeWhile_append_left {α : Type} (pred : α → Bool) (l1 l2 : List α)
    (x : α) (hx : x ∈ l1) (hpx : pred x = false) :
    (l1 ++ l2).takeWhile pred = l1.takeWhile pred := by
  induction l1 with
  | nil => cases hx
  | cons a t ih =>
    cases hpa : pred a with
    | true =>
      rcases List.mem_cons.mp hx with rfl | hxt
      · rw [hpa] at hpx
        cases hpx
      · simp [List.takeWhile_cons, hpa, ih hxt]
    | false => simp [List.takeWhile_cons, hpa]

theorem lastDotSuffix_basename (p : List Char) (h : '.' ∈ basename p) :
    lastDotSuffix (basename p) = lastDotSuffix p := by
  unfold basename at h ⊢
  unfold lastDotSuffix
  rw [List.reverse_reverse]
  congr 1
  have h' : '.' ∈ p.reverse.takeWhile (fun c => c != '/') := by
    rw [← List.mem_reverse]
    exact h
  conv_rhs =>
    rw [← List.takeWhile_append_dropWhile (p := fun c => c != '/')
      (l := p.reverse)]
  exact (takeWhile_append_left _ _ _ '.' h' (by decide)).symm

theorem splitext_proper (p : List Char) (h : hasProperExt p = true) :
    splitextExt p = '.' :: lastDotSuffix p := by
  unfold hasProperExt at h
  rw [Bool.and_eq_true] at h
  obtain ⟨h1, h2⟩ := h
  have hmem : '.' ∈ basename p := of_decide_eq_true h1
  simp only [splitextExt]
  rw [if_pos hmem, if_pos h2, lastDotSuffix_basename p hmem]

theorem insertLe_perm (a : String) (l : List String) :
    (insertLe a l).Perm (a :: l) := by
  induction l with
  | nil => exact List.Perm.refl _
  | cons b t ih =>
    simp only [insertLe]
    split
    · exact List.Perm.refl _
    · exact (List.Perm.cons b ih).trans (List.Perm.swap a b t)

theorem pySorted_perm (l : List String) : (pySorted l).Perm l := by
  induction l with
  | nil => exact List.Perm.refl _
  | cons a t ih => exact (insertLe_perm a (pySorted t)).trans (List.Perm.cons a ih)

theorem numbered_exists {α : Type} (x : α) (l : List α) (hx : x ∈ l) (i : Nat) :
    ∃ n, (n, x) ∈ numbered i l := by
  induction l generalizing i with
  | nil => cases hx
  | cons y t ih =>
    rcases List.mem_cons.mp hx with rfl | hxt
    · exact ⟨i + 1, List.mem_cons_self _ _⟩
    · obtain ⟨n, hn⟩ := ih hxt (i + 1)
      exact ⟨n, List.mem_cons_of_mem _ hn⟩

theorem any_ne_eq_not_all_eq (r : List String) :
    (r.any fun c => pyStrip c != "") = !(r.all fun c => pyStrip c == "") := by
  induction r with
  | nil => rfl
  | cons c t ih =>
    simp only [List.any_cons, List.all_cons, Bool.not_and, bne] at ih ⊢
    rw [ih]

/-- C1, counterexample: a DOCX whose only non-whitespace text lies in table
cells produces an empty `full_text`, although the structured content contains
the non-whitespace cell "x" — the claimed invariant fails because tables are
not concatenated into `full_text`. -/
theorem docx_table_only_gives_empty_full_text :
    (parse_docx [] [[["x"]]]).full_text = "" ∧
    (∃ t ∈ (parse_docx [] [[["x"]]]).table_data, ∃ r ∈ t, ∃ c ∈ r,
      pyStrip c ≠ "") := by
  decide

/-- C1, amended: `full_text` is non-empty whenever the structured content the
format joins into it contains non-whitespace text — for DOCX that is the
paragraph list only (table text never reaches `full_text`); for PDF any page
with non-whitespace text suffices; for XLSX any sheet at all suffices; for
PPTX any slide with a kept text line suffices; for plain text any non-empty
content suffices. -/
theorem full_text_nonempty_of_joined_content :
    (∀ ps ts s, s ∈ ps → pyStrip s ≠ "" → (parse_docx ps ts).full_text ≠ "") ∧
    (∀ pts md s, s ∈ pts → pyStrip s ≠ "" →
      (parse_pdf pts md).full_text ≠ "") ∧
    (∀ wb, wb ≠ [] → (parse_xlsx wb).full_text ≠ "") ∧
    (∀ sl s, s ∈ sl → slideTexts s ≠ [] → (parse_pptx sl).full_text ≠ "") ∧
    (∀ s : String, s ≠ "" → (parse_text s).full_text ≠ "") := by
  refine ⟨?_, ?_, ?_, ?_, ?_⟩
  · intro ps ts s hs hstrip
    have hsne : s ≠ "" := fun e => hstrip (by rw [e]; rfl)
    have hmem : s ∈ ps.filter (fun p => pyStrip p != "") :=
      List.mem_filter.mpr ⟨hs, bne_iff_ne.mpr hstrip⟩
    exact pyJoin_ne_empty _ _ s hmem hsne
  · intro pts md s hs hstrip
    have h1 : pyStrip s ∈ pts.map pyStrip := List.mem_map_of_mem _ hs
    have hmem : pyStrip s ∈ (pts.map pyStrip).filter (fun t => t != "") :=
      List.mem_filter.mpr ⟨h1, bne_iff_ne.mpr hstrip⟩
    exact pyJoin_ne_empty _ _ _ hmem hstrip
  · intro wb hne
    refine pyJoin_map_ne_empty _ _ _ ?_ ?_
    · simp [hne]
    · intro sh _
      exact append_ne_empty_left _ _
        (append_ne_empty_left _ _ (append_ne_empty_left _ _ (by decide)))
  · intro sl s hs htexts
    have h1 : slideTexts s ∈ sl.map slideTexts := List.mem_map_of_mem _ hs
    obtain ⟨n, hn⟩ := numbered_exists _ _ h1 0
    have h2 : (n, slideTexts s) ∈
        (numbered 0 (sl.map slideTexts)).filter (fun e => e.2 != []) :=
      List.mem_filter.mpr ⟨hn, bne_iff_ne.mpr htexts⟩
    have h3 : ("--- Slide " ++ toString n ++ " ---\n" ++
        pyJoin "\n" (slideTexts s)) ∈
        ((numbered 0 (sl.map slideTexts)).filter (fun e => e.2 != [])).map
          (fun e => "--- Slide " ++ toString e.1 ++ " ---\n" ++
            pyJoin "\n" e.2) :=
      List.mem_map_of_mem _ h2
    exact pyJoin_ne_empty _ _ _ h3
      (append_ne_empty_left _ _
        (append_ne_empty_left _ _ (append_ne_empty_left _ _ (by decide))))
  · intro s hne hc
    have hd : s.data ≠ [] := fun e => hne ((string_eq_empty_iff s).mpr e)
    exact univNL_ne_nil _ hd ((string_eq_empty_iff _).mp hc)

/-- Witness for the amended C1 theorem at concrete inputs. -/
theorem full_text_nonempty_witness :
    (parse_docx ["Hello", "   "] []).full_text ≠ "" ∧
    (parse_text "Hi").full_text ≠ "" :=
  ⟨full_text_nonempty_of_joined_content.1 ["Hello", "   "] [] "Hello"
      (List.mem_cons_self _ _) (by decide),
    full_text_nonempty_of_joined_content.2.2.2.2 "Hi" (by decide)⟩

/-- C2: for every supported extension, the temporary file is gone on every
exit path of the coordinator — whether the strategy returns or raises, the
final filesystem equals the original one and does not contain the temporary
name. -/
theorem parse_document_releases_tmp (filename? : Option String)
    (content : List Nat)
    (strategy : FormatId → List Nat → Except String ParseResult)
    (tmpName : String) (fs : List String)
    (hsupp : (resolve (effectiveName filename?)).isSome = true)
    (hfresh : tmpName ∉ fs) :
    (parse_document filename? content strategy tmpName fs).2 = fs ∧
    tmpName ∉ (parse_document filename? content strategy tmpName fs).2 := by
  obtain ⟨fmt, hfmt⟩ := Option.isSome_iff_exists.mp hsupp
  have hfmt' : lookupParser (extOf (effectiveName filename?)) = some fmt := hfmt
  have key : (parse_document filename? content strategy tmpName fs).2 = fs := by
    cases hst : strategy fmt content <;>
      simp [parse_document, hfmt', unlink, hst]
  refine ⟨key, ?_⟩
  rw [key]
  exact hfresh

/-- Witness for C2: a strategy that raises still leaves the filesystem
clean. -/
theorem parse_document_releases_tmp_witness :
    (parse_document (some "a.txt") []
      (fun _ _ => Except.error "boom") "/tmp/t0.txt" []).2 = [] ∧
    "/tmp/t0.txt" ∉ (parse_document (some "a.txt") []
      (fun _ _ => Except.error "boom") "/tmp/t0.txt" []).2 :=
  parse_document_releases_tmp _ _ _ _ _ (by decide) (by decide)

/-- C3, counterexample: releasing a temporary resource whose file was already
removed raises `FileNotFoundError` — the release in the source is a bare
`os.unlink`, which is not idempotent. -/
theorem unlink_missing_raises :
    unlink "/tmp/upload.pdf" [] = Except.error "FileNotFoundError" := rfl

/-- C3, amended: release raises `FileNotFoundError` exactly when the file is
already absent, and succeeds (removing the file) when it is present — it is
not idempotent.  In the coordinator the file always exists when the release
in the `finally` block runs, so that release never raises. -/
theorem unlink_spec (p : String) (fs : List String) :
    (unlink p fs = Except.error "FileNotFoundError" ↔ p ∉ fs) ∧
    (p ∈ fs → unlink p fs = Except.ok (fs.erase p)) := by
  unfold unlink
  split
  · rename_i hmem
    refine ⟨?_, fun _ => rfl⟩
    constructor
    · intro h
      cases h
    · intro h
      exact absurd hmem h
  · rename_i hmem
    exact ⟨⟨fun _ => hmem, fun _ => rfl⟩, fun h => absurd h hmem⟩

/-- Witness for the amended C3 theorem: releasing an existing file succeeds
and removes it. -/
theorem unlink_spec_witness :
    unlink "/tmp/a.pdf" ["/tmp/a.pdf"] = Except.ok [] :=
  ((unlink_spec "/tmp/a.pdf" ["/tmp/a.pdf"]).2 (List.mem_cons_self _ _)).trans
    rfl

/-- C4, counterexample: ".pdf" and "a.pdf" have the same text after their
last dot, yet ".pdf" resolves as unsupported (splitext treats a dotfile as
having no extension) while "a.pdf" resolves to the PDF format — so `resolve`
is not a function of the text after the final dot alone. -/
theorem resolve_dotfile_counterexample :
    lastDotSuffix (String.data ".pdf") = lastDotSuffix (String.data "a.pdf") ∧
    resolve ".pdf" = none ∧
    resolve "a.pdf" = some FormatId.pdf := by
  decide

/-- C4, amended: for filenames that splitext assigns a proper extension (the
last dot lies in the basename and a non-dot character precedes it there),
`resolve` depends only on the lowercased text after the final dot; dotfiles
such as ".pdf" have no extension and resolve as unsupported. -/
theorem resolve_lowered_suffix (f g : String)
    (hf : hasProperExt f.data = true) (hg : hasProperExt g.data = true)
    (h : (lastDotSuffix f.data).map Char.toLower =
      (lastDotSuffix g.data).map Char.toLower) :
    resolve f = resolve g := by
  unfold resolve extOf
  rw [splitext_proper f.data hf, splitext_proper g.data hg]
  simp only [List.map_cons]
  rw [h]

/-- Witness for the amended C4 theorem: case-insensitivity at "A.PDF" versus
"a.pdf". -/
theorem resolve_lowered_suffix_witness : resolve "A.PDF" = resolve "a.pdf" :=
  resolve_lowered_suffix "A.PDF" "a.pdf" (by decide) (by decide) (by decide)

/-- C5: an unsupported extension terminates the coordinator with a 400 error
whose detail names the extension and the comma-joined alphabetically sorted
list of all supported extensions, and the filesystem is untouched — no
temporary resource is acquired. -/
theorem parse_document_unsupported (filename? : Option String)
    (content : List Nat)
    (strategy : FormatId → List Nat → Except String ParseResult)
    (tmpName : String) (fs : List String)
    (h : resolve (effectiveName filename?) = none) :
    parse_document filename? content strategy tmpName fs =
      (Outcome.err 400 ("Unsupported format: " ++ extOf (effectiveName filename?)
        ++ ". Supported: " ++ pyJoin ", " sortedSupported), fs) ∧
    isSortedLe sortedSupported = true ∧
    sortedSupported.Perm supportedExts := by
  refine ⟨?_, by decide, pySorted_perm _⟩
  have h' : lookupParser (extOf (effectiveName filename?)) = none := h
  simp [parse_document, h']

/-- Witness for C5 at the unsupported upload "report.unknownext". -/
theorem parse_document_unsupported_witness :
    parse_document (some "report.unknownext") []
        (fun _ _ => Except.error "") "/tmp/t1" [] =
      (Outcome.err 400 ("Unsupported format: "
        ++ extOf (effectiveName (some "report.unknownext"))
        ++ ". Supported: " ++ pyJoin ", " sortedSupported), []) ∧
    isSortedLe sortedSupported = true ∧
    sortedSupported.Perm supportedExts :=
  parse_document_unsupported _ _ _ _ _ (by decide)

/-- C6, counterexample: content containing a CRLF sequence is not returned
verbatim — reading in text mode translates "\r\n" to "\n", so the full text
of "Hello\r\nWorld" is "Hello\nWorld" with 11 characters. -/
theorem parse_text_crlf_counterexample :
    (parse_text "Hello\r\nWorld").full_text ≠ "Hello\r\nWorld" ∧
    (parse_text "Hello\r\nWorld").full_text = "Hello\nWorld" ∧
    (parse_text "Hello\r\nWorld").characters = 11 := by
  refine ⟨by decide, by decide, by decide⟩

/-- C6, amended: the plain-text strategy returns the decoded content with
universal-newline translation applied; content without carriage returns is
returned verbatim, `lines` is the newline count of the returned text plus
one, and `characters` is its length. -/
theorem parse_text_spec (decoded : String) :
    (parse_text decoded).full_text = ⟨univNL decoded.data⟩ ∧
    ('\r' ∉ decoded.data → (parse_text decoded).full_text = decoded) ∧
    (parse_text decoded).lines =
      (parse_text decoded).full_text.data.count '\n' + 1 ∧
    (parse_text decoded).characters =
      (parse_text decoded).full_text.data.length := by
  refine ⟨rfl, ?_, rfl, rfl⟩
  intro h
  show (⟨univNL decoded.data⟩ : String) = decoded
  rw [univNL_no_cr _ h]

/-- Witness for the amended C6 theorem: the notes.md scenario. -/
theorem parse_text_spec_witness :
    (parse_text "Hello\nWorld").full_text = "Hello\nWorld" ∧
    (parse_text "Hello\nWorld").lines = 2 ∧
    (parse_text "Hello\nWorld").characters = 11 :=
  ⟨(parse_text_spec "Hello\nWorld").2.1 (by decide), by decide, by decide⟩

/-- C7: the XLSX strategy stringifies every cell (absent cells become ""),
drops exactly the rows whose cells all strip to empty, keeps every sheet in
the result mapping (same sheet names in the same order), and the example
sheet keeps exactly its two non-empty rows. -/
theorem parse_xlsx_spec :
    (∀ wb, (parse_xlsx wb).data =
        wb.map (fun sh => (sh.1,
          (sh.2.map (fun row => row.map (fun c => c.getD ""))).filter
            (fun r => !(r.all (fun c => pyStrip c == ""))))) ∧
      (parse_xlsx wb).sheets = wb.map Prod.fst) ∧
    (parse_xlsx [("S", [[some "a", some "b"], [some "", some ""],
        [some "c", some "d"]])]).data = [("S", [["a", "b"], ["c", "d"]])] := by
  have hfun : (fun (r : List String) => r.any fun c => pyStrip c != "") =
      (fun r => !(r.all fun c => pyStrip c == "")) :=
    funext any_ne_eq_not_all_eq
  refine ⟨fun wb => ⟨?_, ?_⟩, by decide⟩
  · simp only [parse_xlsx]
    simp only [hfun]
  · simp only [parse_xlsx, List.map_map]
    rfl

/-- C8: the DOCX strategy keeps exactly the paragraphs whose stripped text is
non-empty, tables keep every (stripped) cell including structurally empty
ones, and in the example document the whitespace-only paragraph is dropped
from the paragraph list and from the full text while the empty cell in row 2
position 1 survives. -/
theorem parse_docx_spec :
    (∀ ps ts p, p ∈ (parse_docx ps ts).content ↔ (p ∈ ps ∧ pyStrip p ≠ "")) ∧
    (∀ ps ts, (parse_docx ps ts).table_data =
      ts.map (fun t => t.map (fun row => row.map pyStrip))) ∧
    ((parse_docx ["   "] [[["x", "y"], ["", "z"]]]).content = [] ∧
      (parse_docx ["   "] [[["x", "y"], ["", "z"]]]).full_text = "" ∧
      (parse_docx ["   "] [[["x", "y"], ["", "z"]]]).table_data =
        [[["x", "y"], ["", "z"]]]) := by
  refine ⟨?_, fun ps ts => rfl, by decide, by decide, by decide⟩
  intro ps ts p
  show p ∈ ps.filter (fun q => pyStrip q != "") ↔ _
  rw [List.mem_filter]
  simp [bne_iff_ne]

/-- C9, counterexample: a document whose title element is present but empty
yields `None` (not a string) for the title — a beautifulsoup4 tag is always
truthy, and `.string` of an empty tag is `None`. -/
theorem parse_html_empty_title_counterexample :
    (parse_html (some []) "Body text").title = none ∧
    (parse_html (some []) "Body text").title ≠ some "" := by
  constructor
  · rw [parse_html]
    rw [tagString.eq_def]
  · rw [parse_html]
    rw [tagString.eq_def]
    decide

/-- C9, amended: the title field is the empty string when no title element
exists, the title text when the title element has a single string child, and
`None` — not a string — when the title element is present but empty or has
several children. -/
theorem parse_html_title_spec :
    (∀ txt, (parse_html none txt).title = some "") ∧
    (∀ txt s, (parse_html (some [HNode.text s]) txt).title = some s) ∧
    (∀ txt a b rest, (parse_html (some (a :: b :: rest)) txt).title = none) ∧
    (∀ txt, (parse_html (some []) txt).title = none) := by
  refine ⟨fun txt => rfl, ?_, ?_, ?_⟩
  · intro txt s
    show tagString [HNode.text s] = some s
    rw [tagString.eq_def]
  · intro txt a b rest
    show tagString (a :: b :: rest) = none
    rw [tagString.eq_def]
    cases a <;> rfl
  · intro txt
    show tagString [] = none
    rw [tagString.eq_def]

/-- C10: a missing or empty declared filename is replaced by "document",
which has no extension, so the request ends in the unsupported-format error
and the filesystem is untouched. -/
theorem parse_document_missing_filename (filename? : Option String)
    (content : List Nat)
    (strategy : FormatId → List Nat → Except String ParseResult)
    (tmpName : String) (fs : List String)
    (h : filename? = none ∨ filename? = some "") :
    effectiveName filename? = "document" ∧
    extOf "document" = "" ∧
    parse_document filename? content strategy tmpName fs =
      (Outcome.err 400 ("Unsupported format: " ++ extOf "document"
        ++ ". Supported: " ++ pyJoin ", " sortedSupported), fs) := by
  have hname : effectiveName filename? = "document" := by
    rcases h with rfl | rfl <;> rfl
  refine ⟨hname, by decide, ?_⟩
  have hr : lookupParser (extOf "document") = none := by decide
  simp [parse_document, hname, hr]

/-- Witness for C10 at a request with no filename. -/
theorem parse_document_missing_filename_witness :
    effectiveName none = "document" ∧
    extOf "document" = "" ∧
    parse_document none [] (fun _ _ => Except.error "") "/tmp/t2" [] =
      (Outcome.err 400 ("Unsupported format: " ++ extOf "document"
        ++ ". Supported: " ++ pyJoin ", " sortedSupported), []) :=
  parse_document_missing_filename _ _ _ _ _ (Or.inl rfl)

end DocUtils
